import Mathlib

/-!
# TriniWeb audio-state server (`backend.go`)

A shallow embedding of the state engine of `backend.go`: the `AudioState`
record, the body of the `startAudioTimer` loop, the command switches of
`handleControl` and `handleWebSocket`, and the body of the
`broadcastAudioState` loop, followed by theorems about them.

Conventions of the embedding.

* `float64` values are exact rationals (`ℚ`); the literal `0.7` is `7/10`.
* `int` is a 64-bit two's-complement integer: values are `Int`, the increment
  `CurrentTime++` wraps with `wrapInt64`, and the conversion `int(pos)` is
  `intOfFloat64`.
* The unbuffered channel `broadcast` is the list of snapshots sent to it, in
  order of sending.
* Each handler is a function from the state before to the state after,
  together with what it sends; the mutex makes each of them atomic, so a run
  of the server is an interleaving of these steps.
-/

namespace TriniWeb

/-! ## Data model -/

/-- AudioState represents the current state of the audio player
(`backend.go`, lines 19-25). -/
structure AudioState where
  IsPlaying : Bool
  Volume : ℚ
  IsMuted : Bool
  CurrentTime : Int
  Duration : Int
deriving DecidableEq, Repr

/-- The global `audioState` at process start (`backend.go`, lines 36-42). -/
def audioState : AudioState :=
  { IsPlaying := false
    Volume := 7 / 10
    IsMuted := false
    CurrentTime := 0
    Duration := 180 }

/-- A decoded JSON value held in an `interface{}`: `encoding/json` stores a
JSON number as a `float64`; every other JSON value (null, bool, string,
array, object) has a different dynamic type. -/
inductive JsonValue where
  | float64 (v : ℚ)
  | other
deriving DecidableEq, Repr

/-- WebSocket message structure (`backend.go`, lines 28-31). The field
`Type` of the source is named `MsgType` here. -/
structure WebSocketMessage where
  MsgType : String
  Data : JsonValue
deriving DecidableEq, Repr

/-- The anonymous struct `cmd` decoded by `handleControl`
(`backend.go`, lines 133-136); a missing `value` decodes to `0`. -/
structure ControlCmd where
  Action : String
  Value : ℚ
deriving DecidableEq, Repr

/-! ## Machine integers -/

/-- Smallest value of a 64-bit `int`. -/
def minInt64 : Int := -(2 ^ 63)

/-- Largest value of a 64-bit `int`. -/
def maxInt64 : Int := 2 ^ 63 - 1

/-- Two's-complement wrap-around of a 64-bit `int`. -/
def wrapInt64 (x : Int) : Int := (x + 2 ^ 63) % 2 ^ 64 - 2 ^ 63

/-- Truncation toward zero of a rational: the fraction is discarded. -/
def truncToward0 (p : ℚ) : Int := Int.tdiv p.num p.den

/-- The Go conversion `int(pos)` of a `float64`: the fraction is discarded
(truncation toward zero). When the truncated value does not fit a 64-bit
`int` the Go result is implementation-dependent; the value produced on amd64
(`minInt64`) is used here, and the theorems that state the converted value
assume that the truncation fits. -/
def intOfFloat64 (p : ℚ) : Int :=
  if minInt64 ≤ truncToward0 p ∧ truncToward0 p ≤ maxInt64 then truncToward0 p
  else minInt64

/-! ## Tick source -/

/-- One iteration of the loop of `startAudioTimer` (`backend.go`,
lines 88-99): the state after the tick and the snapshots sent to
`broadcast`. -/
def startAudioTimer (s : AudioState) : AudioState × List AudioState :=
  let s1 : AudioState :=
    if s.IsPlaying then
      let s2 : AudioState := { s with CurrentTime := wrapInt64 (s.CurrentTime + 1) }
      if s2.CurrentTime ≥ s2.Duration then
        { s2 with IsPlaying := false, CurrentTime := 0 }
      else s2
    else s
  (s1, [s1])

/-! ## Request/response adapter -/

/-- What `handleControl` writes to the HTTP response. -/
inductive ControlResponse where
  | methodNotAllowed
  | badRequest
  | ok (body : AudioState)
deriving DecidableEq, Repr

/-- Result of one call of `handleControl`. -/
structure ControlResult where
  state : AudioState
  broadcasts : List AudioState
  response : ControlResponse
deriving DecidableEq, Repr

/-- The `switch cmd.Action` of `handleControl` (`backend.go`, lines 146-166).

The outer switch has the cases `play`, `pause`, `togglePlay`, `setVolume`
and `toggleMute`. The text `case "reset":` of lines 162-164 stands inside the
`else` block of the `toggleMute` case, not among the cases of the switch, so
the action `reset` selects no case and the two assignments below it are
never run. -/
def handleControlSwitch (cmd : ControlCmd) (s : AudioState) : AudioState :=
  if cmd.Action = "play" then { s with IsPlaying := true }
  else if cmd.Action = "pause" then { s with IsPlaying := false }
  else if cmd.Action = "togglePlay" then { s with IsPlaying := !s.IsPlaying }
  else if cmd.Action = "setVolume" then
    { s with Volume := cmd.Value, IsMuted := decide (cmd.Value = 0) }
  else if cmd.Action = "toggleMute" then
    let s1 : AudioState := { s with IsMuted := !s.IsMuted }
    if s1.IsMuted then { s1 with Volume := 0 }
    else { s1 with Volume := 7 / 10 }
  else s

/-- The handler `handleControl` (`backend.go`, lines 127-173). `method` is
the request method; `body` is the decoded request body, `none` when decoding
fails. -/
def handleControl (method : String) (body : Option ControlCmd) (s : AudioState) :
    ControlResult :=
  if method ≠ "POST" then
    { state := s, broadcasts := [], response := ControlResponse.methodNotAllowed }
  else
    match body with
    | none => { state := s, broadcasts := [], response := ControlResponse.badRequest }
    | some cmd =>
      let s1 := handleControlSwitch cmd s
      { state := s1, broadcasts := [s1], response := ControlResponse.ok s1 }

/-! ## Push adapter -/

/-- The `switch msg.Type` of `handleWebSocket` (`backend.go`,
lines 204-230). -/
def handleWebSocketSwitch (msg : WebSocketMessage) (s : AudioState) : AudioState :=
  if msg.MsgType = "play" then { s with IsPlaying := true }
  else if msg.MsgType = "pause" then { s with IsPlaying := false }
  else if msg.MsgType = "togglePlay" then { s with IsPlaying := !s.IsPlaying }
  else if msg.MsgType = "setVolume" then
    match msg.Data with
    | JsonValue.float64 volume =>
      { s with Volume := volume, IsMuted := decide (volume = 0) }
    | JsonValue.other => s
  else if msg.MsgType = "toggleMute" then
    let s1 : AudioState := { s with IsMuted := !s.IsMuted }
    if s1.IsMuted then { s1 with Volume := 0 }
    else { s1 with Volume := 7 / 10 }
  else if msg.MsgType = "reset" then
    { s with IsPlaying := false, CurrentTime := 0 }
  else if msg.MsgType = "setPosition" then
    match msg.Data with
    | JsonValue.float64 pos => { s with CurrentTime := intOfFloat64 pos }
    | JsonValue.other => s
  else s

/-- One iteration of the receive loop of `handleWebSocket` (`backend.go`,
lines 195-235) for a frame that `ReadJSON` decoded: the state after and the
snapshots sent to `broadcast`. -/
def handleWebSocket (msg : WebSocketMessage) (s : AudioState) :
    AudioState × List AudioState :=
  let currentState := handleWebSocketSwitch msg s
  (currentState, [currentState])

/-! ## Runs -/

/-- One atomic step of the server. -/
inductive Step where
  | tick
  | control (cmd : ControlCmd)
  | ws (msg : WebSocketMessage)
deriving DecidableEq, Repr

/-- The state after a step and the snapshots the step sends to `broadcast`. -/
def step (s : AudioState) : Step → AudioState × List AudioState
  | Step.tick => startAudioTimer s
  | Step.control cmd =>
    let r := handleControl "POST" (some cmd) s
    (r.state, r.broadcasts)
  | Step.ws msg => handleWebSocket msg s

/-- The state after a sequence of steps and all snapshots sent to
`broadcast`, in order. -/
def run (s : AudioState) : List Step → AudioState × List AudioState
  | [] => (s, [])
  | st :: rest =>
    let r1 := step s st
    let r2 := run r1.1 rest
    (r2.1, r1.2 ++ r2.2)

/-- The states a run passes through after each of its steps, in order. -/
def states (s : AudioState) : List Step → List AudioState
  | [] => []
  | st :: rest => (step s st).1 :: states (step s st).1 rest

/-! ## Subscriber registry and broadcaster -/

/-- Identity of a WebSocket connection (the pointer `*websocket.Conn`). -/
abbrev Conn := Nat

/-- The registry `clients` with what the broadcaster has done to the
connections: `clients` are the keys of the map, `closed` the connections on
which `Close` was called, `delivered` the successful `WriteJSON` calls. -/
structure Hub where
  clients : List Conn
  closed : List Conn
  delivered : List (Conn × AudioState)
deriving DecidableEq, Repr

/-- The body of `for client := range clients` in `broadcastAudioState`
(`backend.go`, lines 107-112); `writeOk client` tells whether
`client.WriteJSON(state)` returns a nil error. -/
def broadcastToClient (writeOk : Conn → Bool) (state : AudioState) (h : Hub)
    (client : Conn) : Hub :=
  if writeOk client then
    { h with delivered := h.delivered ++ [(client, state)] }
  else
    { h with closed := h.closed ++ [client]
             clients := h.clients.filter (fun c => c ≠ client) }

/-- The body of `for state := range broadcast` in `broadcastAudioState`
(`backend.go`, lines 105-114): every key of `clients` is visited once, in the
order of the list. -/
def broadcastAudioState (writeOk : Conn → Bool) (state : AudioState) (h : Hub) : Hub :=
  h.clients.foldl (broadcastToClient writeOk state) h

/-- The broadcaster handling a sequence of snapshots, each with the outcome
of the writes of its round. -/
def broadcastAll (h : Hub) : List (AudioState × (Conn → Bool)) → Hub
  | [] => h
  | r :: rest => broadcastAll (broadcastAudioState r.2 r.1 h) rest

/-! ## Predicates on steps -/

/-- A step whose `setPosition` payload, if it is one of the push adapter with
a number as payload, converts to an `int` between `0` and `d`. -/
def seekWithinTrack (d : Int) : Step → Bool
  | Step.ws msg =>
    match msg.Data with
    | JsonValue.float64 pos =>
      decide (msg.MsgType = "setPosition" → 0 ≤ intOfFloat64 pos ∧ intOfFloat64 pos ≤ d)
    | JsonValue.other => true
  | _ => true

/-- A step whose `setVolume` payload, if it is a `setVolume` of either
adapter, lies between `0` and `1`. -/
def volumeWithinUnit : Step → Bool
  | Step.control cmd =>
    decide (cmd.Action = "setVolume" → 0 ≤ cmd.Value ∧ cmd.Value ≤ 1)
  | Step.ws msg =>
    match msg.Data with
    | JsonValue.float64 volume =>
      decide (msg.MsgType = "setVolume" → 0 ≤ volume ∧ volume ≤ 1)
    | JsonValue.other => true
  | Step.tick => true

/-! ## Properties of states, the command set and the rule of the specification -/

/-- The invariant of the playback position. -/
def positionInTrack (s : AudioState) : Prop :=
  0 ≤ s.CurrentTime ∧ s.CurrentTime ≤ s.Duration

/-- The invariant of the volume. -/
def volumeInUnit (s : AudioState) : Prop :=
  0 ≤ s.Volume ∧ s.Volume ≤ 1

/-- The mute flag is set exactly when the volume is zero. -/
def muteIffSilent (s : AudioState) : Prop :=
  s.IsMuted = true ↔ s.Volume = 0

/-- The closed set of command names of the specification. -/
def commandSet : List String :=
  ["play", "pause", "togglePlay", "setVolume", "toggleMute", "reset", "setPosition"]

/-- The rule of the specification for `setPosition`:
`clamp(⌊p⌋, 0, duration)`. -/
def clampFloor (p : ℚ) (duration : Int) : Int :=
  max 0 (min ⌊p⌋ duration)

/-- The snapshots written successfully to one connection, in order. -/
def deliveredTo (c : Conn) (h : Hub) : List AudioState :=
  (h.delivered.filter (fun d => decide (d.1 = c))).map Prod.snd

/-! ## General facts about runs -/

theorem step_emits (s : AudioState) (st : Step) : (step s st).2 = [(step s st).1] := by
  cases st <;> simp [step, startAudioTimer, handleControl, handleWebSocket]

theorem run_snapshots (s : AudioState) (steps : List Step) :
    (run s steps).2 = states s steps := by
  induction steps generalizing s with
  | nil => rfl
  | cons st rest ih => simp [run, states, step_emits, ih]

theorem run_state_cons (s : AudioState) (st : Step) (rest : List Step) :
    (run s (st :: rest)).1 = (run (step s st).1 rest).1 := rfl

/-- A property kept by every step of a run holds in every state of the run
and in its final state. -/
theorem states_induction (P : AudioState → Prop) (Q : Step → Prop)
    (hstep : ∀ s st, P s → Q st → P (step s st).1) :
    ∀ (steps : List Step) (s : AudioState), P s → (∀ st ∈ steps, Q st) →
      (∀ x ∈ states s steps, P x) ∧ P (run s steps).1 := by
  intro steps
  induction steps with
  | nil => intro s hs _; exact ⟨by simp [states], by simpa [run] using hs⟩
  | cons st rest ih =>
    intro s hs hq
    have h1 : P (step s st).1 := hstep s st hs (hq st (List.mem_cons_self _ _))
    have h2 := ih (step s st).1 h1 (fun t ht => hq t (List.mem_cons_of_mem _ ht))
    refine ⟨?_, ?_⟩
    · intro x hx
      simp only [states, List.mem_cons] at hx
      rcases hx with rfl | hx
      · exact h1
      · exact h2.1 x hx
    · rw [run_state_cons]; exact h2.2

theorem wrapInt64_of_range (x : Int) (h1 : minInt64 ≤ x) (h2 : x ≤ maxInt64) :
    wrapInt64 x = x := by
  unfold wrapInt64
  unfold minInt64 at h1
  unfold maxInt64 at h2
  rw [Int.emod_eq_of_lt (by omega) (by omega)]
  omega

theorem step_duration (s : AudioState) (st : Step) : (step s st).1.Duration = s.Duration := by
  cases st with
  | tick =>
    simp only [step, startAudioTimer]
    split_ifs <;> rfl
  | control cmd =>
    simp only [step, handleControl, handleControlSwitch]
    split_ifs <;> rfl
  | ws msg =>
    simp only [step, handleWebSocket, handleWebSocketSwitch]
    split_ifs <;> first | rfl | (split <;> rfl)

theorem step_positionInTrack (d : Int) (hd : d < maxInt64) (s : AudioState) (st : Step)
    (hs : s.Duration = d ∧ positionInTrack s) (hq : seekWithinTrack d st = true) :
    (step s st).1.Duration = d ∧ positionInTrack (step s st).1 := by
  refine ⟨by rw [step_duration]; exact hs.1, ?_⟩
  obtain ⟨hdur, h0, h1⟩ := hs
  cases st with
  | tick =>
    have hw : wrapInt64 (s.CurrentTime + 1) = s.CurrentTime + 1 := by
      apply wrapInt64_of_range
      · unfold minInt64; omega
      · omega
    simp only [step, startAudioTimer, positionInTrack, hw]
    split_ifs with hp hge
    · simp only; omega
    · simp only; simp only [ge_iff_le, not_le] at hge; omega
    · exact ⟨h0, h1⟩
  | control cmd =>
    simp only [step, handleControl, handleControlSwitch, positionInTrack]
    split_ifs <;> exact ⟨h0, h1⟩
  | ws msg =>
    obtain ⟨ty, data⟩ := msg
    cases data with
    | other =>
      simp only [step, handleWebSocket, handleWebSocketSwitch, positionInTrack]
      split_ifs <;> first | exact ⟨h0, h1⟩ | (simp only; omega)
    | float64 v =>
      simp only [seekWithinTrack, decide_eq_true_eq] at hq
      simp only [step, handleWebSocket, handleWebSocketSwitch, positionInTrack]
      split_ifs <;>
        first
        | exact ⟨h0, h1⟩
        | (simp only; omega)
        | (simp only; have hr := hq (by assumption); omega)

theorem step_volumeInUnit (s : AudioState) (st : Step)
    (hs : volumeInUnit s) (hq : volumeWithinUnit st = true) :
    volumeInUnit (step s st).1 := by
  cases st with
  | tick =>
    simp only [step, startAudioTimer, volumeInUnit]
    split_ifs <;> exact hs
  | control cmd =>
    simp only [volumeWithinUnit, decide_eq_true_eq] at hq
    simp only [step, handleControl, handleControlSwitch, volumeInUnit]
    split_ifs <;>
      first
      | exact hs
      | exact hq (by assumption)
      | (simp only; norm_num)
  | ws msg =>
    obtain ⟨ty, data⟩ := msg
    cases data with
    | other =>
      simp only [step, handleWebSocket, handleWebSocketSwitch, volumeInUnit]
      split_ifs <;> first | exact hs | (simp only; norm_num)
    | float64 v =>
      simp only [volumeWithinUnit, decide_eq_true_eq] at hq
      simp only [step, handleWebSocket, handleWebSocketSwitch, volumeInUnit]
      split_ifs <;>
        first
        | exact hs
        | exact hq (by assumption)
        | (simp only; norm_num)

theorem step_muteIffSilent (s : AudioState) (st : Step) (hs : muteIffSilent s) :
    muteIffSilent (step s st).1 := by
  cases st with
  | tick =>
    simp only [step, startAudioTimer, muteIffSilent]
    split_ifs <;> exact hs
  | control cmd =>
    simp only [step, handleControl, handleControlSwitch, muteIffSilent]
    split_ifs <;> first | exact hs | simp_all
  | ws msg =>
    obtain ⟨ty, data⟩ := msg
    cases data <;>
    · simp only [step, handleWebSocket, handleWebSocketSwitch, muteIffSilent]
      split_ifs <;> first | exact hs | simp_all

/-! ## C1: playback position -/

/-- C1, as stated, fails: from the initial state the push adapter's
`setPosition 500` sends a snapshot with `CurrentTime = 500`, above the
duration `180`, and `setPosition -3` then sends one with `CurrentTime = -3`,
below `0`; the conversion `int(pos)` is stored without any clamp. -/
theorem position_escapes_track :
    (run audioState
        [Step.ws ⟨"setPosition", JsonValue.float64 500⟩,
         Step.ws ⟨"setPosition", JsonValue.float64 (-3)⟩]).2
      = [{ audioState with CurrentTime := 500 }, { audioState with CurrentTime := -3 }] ∧
    ¬ (∀ snap ∈ (run audioState
        [Step.ws ⟨"setPosition", JsonValue.float64 500⟩,
         Step.ws ⟨"setPosition", JsonValue.float64 (-3)⟩]).2,
        0 ≤ snap.CurrentTime ∧ snap.CurrentTime ≤ snap.Duration) := by
  have h : (run audioState
        [Step.ws ⟨"setPosition", JsonValue.float64 500⟩,
         Step.ws ⟨"setPosition", JsonValue.float64 (-3)⟩]).2
      = [{ audioState with CurrentTime := 500 }, { audioState with CurrentTime := -3 }] := by
    simp [run, step, handleWebSocket, handleWebSocketSwitch, intOfFloat64, truncToward0,
      minInt64, maxInt64, audioState]
  refine ⟨h, ?_⟩
  rw [h]
  simp [audioState]

/-- C1 (amended): for every finite sequence of ticks and commands of either
adapter in which every `setPosition` payload `p` of the push adapter converts
to an `int` with `0 ≤ int(p) ≤ 180`, starting from the initial state
`{false, 0.7, false, 0, 180}`, every snapshot sent to `broadcast`, and the
final state, satisfies `0 ≤ currentTime ≤ duration`. -/
theorem position_in_track_of_seeks_in_track (steps : List Step)
    (h : ∀ st ∈ steps, seekWithinTrack 180 st = true) :
    (∀ snap ∈ (run audioState steps).2,
        0 ≤ snap.CurrentTime ∧ snap.CurrentTime ≤ snap.Duration) ∧
    (0 ≤ (run audioState steps).1.CurrentTime ∧
      (run audioState steps).1.CurrentTime ≤ (run audioState steps).1.Duration) := by
  have key := states_induction
    (fun s => s.Duration = 180 ∧ positionInTrack s) (fun st => seekWithinTrack 180 st = true)
    (fun s st hs hq => step_positionInTrack 180 (by unfold maxInt64; norm_num) s st hs hq)
    steps audioState ⟨rfl, by simp [positionInTrack, audioState]⟩ h
  rw [run_snapshots]
  exact ⟨fun snap hsnap => (key.1 snap hsnap).2, key.2.2⟩

/-- Witness of `position_in_track_of_seeks_in_track` (C1): a run that plays,
ticks, seeks to `120`, ticks and resets. -/
theorem position_in_track_of_seeks_in_track_witness :
    (∀ st ∈ [Step.ws ⟨"play", JsonValue.other⟩, Step.tick,
        Step.ws ⟨"setPosition", JsonValue.float64 120⟩, Step.tick,
        Step.control ⟨"reset", 0⟩], seekWithinTrack 180 st = true) ∧
    ((∀ snap ∈ (run audioState [Step.ws ⟨"play", JsonValue.other⟩, Step.tick,
        Step.ws ⟨"setPosition", JsonValue.float64 120⟩, Step.tick,
        Step.control ⟨"reset", 0⟩]).2,
        0 ≤ snap.CurrentTime ∧ snap.CurrentTime ≤ snap.Duration) ∧
    (0 ≤ (run audioState [Step.ws ⟨"play", JsonValue.other⟩, Step.tick,
        Step.ws ⟨"setPosition", JsonValue.float64 120⟩, Step.tick,
        Step.control ⟨"reset", 0⟩]).1.CurrentTime ∧
      (run audioState [Step.ws ⟨"play", JsonValue.other⟩, Step.tick,
        Step.ws ⟨"setPosition", JsonValue.float64 120⟩, Step.tick,
        Step.control ⟨"reset", 0⟩]).1.CurrentTime ≤
      (run audioState [Step.ws ⟨"play", JsonValue.other⟩, Step.tick,
        Step.ws ⟨"setPosition", JsonValue.float64 120⟩, Step.tick,
        Step.control ⟨"reset", 0⟩]).1.Duration)) :=
  have hyp : ∀ st ∈ [Step.ws ⟨"play", JsonValue.other⟩, Step.tick,
        Step.ws ⟨"setPosition", JsonValue.float64 120⟩, Step.tick,
        Step.control ⟨"reset", 0⟩], seekWithinTrack 180 st = true := by
    simp [seekWithinTrack, intOfFloat64, truncToward0, minInt64, maxInt64]
  ⟨hyp, position_in_track_of_seeks_in_track _ hyp⟩

/-! ## C2: volume -/

/-- C2, as stated, fails: from the initial state `setVolume 5` through
`handleControl` sends a snapshot with `Volume = 5`, and `setVolume -1`
through `handleWebSocket` then sends one with `Volume = -1`; neither adapter
clamps the payload. -/
theorem volume_escapes_unit :
    (run audioState
        [Step.control ⟨"setVolume", 5⟩,
         Step.ws ⟨"setVolume", JsonValue.float64 (-1)⟩]).2
      = [{ audioState with Volume := 5 }, { audioState with Volume := -1 }] ∧
    ¬ (∀ snap ∈ (run audioState
        [Step.control ⟨"setVolume", 5⟩,
         Step.ws ⟨"setVolume", JsonValue.float64 (-1)⟩]).2,
        0 ≤ snap.Volume ∧ snap.Volume ≤ 1) := by
  have h : (run audioState
        [Step.control ⟨"setVolume", 5⟩,
         Step.ws ⟨"setVolume", JsonValue.float64 (-1)⟩]).2
      = [{ audioState with Volume := 5 }, { audioState with Volume := -1 }] := by
    simp [run, step, handleControl, handleControlSwitch, handleWebSocket,
      handleWebSocketSwitch, audioState]
  refine ⟨h, ?_⟩
  rw [h]
  simp [audioState]

/-- C2 (amended): for every finite sequence of ticks and commands of either
adapter in which every `setVolume` payload `v` satisfies `0 ≤ v ≤ 1`,
starting from the initial state, every snapshot sent to `broadcast`, and the
final state, has `0 ≤ volume ≤ 1` (volume an exact rational). -/
theorem volume_in_unit_of_payloads_in_unit (steps : List Step)
    (h : ∀ st ∈ steps, volumeWithinUnit st = true) :
    (∀ snap ∈ (run audioState steps).2, 0 ≤ snap.Volume ∧ snap.Volume ≤ 1) ∧
    (0 ≤ (run audioState steps).1.Volume ∧ (run audioState steps).1.Volume ≤ 1) := by
  have key := states_induction volumeInUnit (fun st => volumeWithinUnit st = true)
    step_volumeInUnit steps audioState (by simp [volumeInUnit, audioState]; norm_num) h
  rw [run_snapshots]
  exact key

/-- Witness of `volume_in_unit_of_payloads_in_unit` (C2): a run that sets the
volume to `1`, mutes, unmutes and sets the volume to `0`. -/
theorem volume_in_unit_of_payloads_in_unit_witness :
    (∀ st ∈ [Step.control ⟨"setVolume", 1⟩, Step.ws ⟨"toggleMute", JsonValue.other⟩,
        Step.tick, Step.control ⟨"toggleMute", 0⟩,
        Step.ws ⟨"setVolume", JsonValue.float64 0⟩], volumeWithinUnit st = true) ∧
    ((∀ snap ∈ (run audioState [Step.control ⟨"setVolume", 1⟩,
        Step.ws ⟨"toggleMute", JsonValue.other⟩,
        Step.tick, Step.control ⟨"toggleMute", 0⟩,
        Step.ws ⟨"setVolume", JsonValue.float64 0⟩]).2, 0 ≤ snap.Volume ∧ snap.Volume ≤ 1) ∧
    (0 ≤ (run audioState [Step.control ⟨"setVolume", 1⟩,
        Step.ws ⟨"toggleMute", JsonValue.other⟩,
        Step.tick, Step.control ⟨"toggleMute", 0⟩,
        Step.ws ⟨"setVolume", JsonValue.float64 0⟩]).1.Volume ∧
      (run audioState [Step.control ⟨"setVolume", 1⟩,
        Step.ws ⟨"toggleMute", JsonValue.other⟩,
        Step.tick, Step.control ⟨"toggleMute", 0⟩,
        Step.ws ⟨"setVolume", JsonValue.float64 0⟩]).1.Volume ≤ 1)) :=
  have hyp : ∀ st ∈ [Step.control ⟨"setVolume", 1⟩, Step.ws ⟨"toggleMute", JsonValue.other⟩,
        Step.tick, Step.control ⟨"toggleMute", 0⟩,
        Step.ws ⟨"setVolume", JsonValue.float64 0⟩], volumeWithinUnit st = true := by
    simp [volumeWithinUnit]
  ⟨hyp, volume_in_unit_of_payloads_in_unit _ hyp⟩

/-! ## C10: mute and zero volume -/

/-- C10: in every state reachable from the initial state
`{false, 0.7, false, 0, 180}` by any finite sequence of ticks and commands of
either adapter, with any payloads, and so in every snapshot sent to
`broadcast`, `isMuted` holds if and only if `volume = 0`. -/
theorem muted_iff_volume_zero (steps : List Step) :
    (∀ snap ∈ (run audioState steps).2, (snap.IsMuted = true ↔ snap.Volume = 0)) ∧
    ((run audioState steps).1.IsMuted = true ↔ (run audioState steps).1.Volume = 0) := by
  have key := states_induction muteIffSilent (fun _ => True)
    (fun s st hs _ => step_muteIffSilent s st hs) steps audioState
    (by simp [muteIffSilent, audioState]) (fun _ _ => trivial)
  rw [run_snapshots]
  exact key

/-- Witness of `muted_iff_volume_zero` (C10): a run with payloads outside
`[0, 1]`, a mute toggle and a seek. -/
theorem muted_iff_volume_zero_witness :
    (∀ snap ∈ (run audioState [Step.control ⟨"setVolume", 5⟩,
        Step.ws ⟨"toggleMute", JsonValue.other⟩, Step.tick,
        Step.ws ⟨"setVolume", JsonValue.float64 0⟩]).2,
        (snap.IsMuted = true ↔ snap.Volume = 0)) ∧
    ((run audioState [Step.control ⟨"setVolume", 5⟩,
        Step.ws ⟨"toggleMute", JsonValue.other⟩, Step.tick,
        Step.ws ⟨"setVolume", JsonValue.float64 0⟩]).1.IsMuted = true ↔
      (run audioState [Step.control ⟨"setVolume", 5⟩,
        Step.ws ⟨"toggleMute", JsonValue.other⟩, Step.tick,
        Step.ws ⟨"setVolume", JsonValue.float64 0⟩]).1.Volume = 0) :=
  muted_iff_volume_zero _

/-! ## C3: snapshots sent per command -/

/-- C3, as stated, fails: a frame of type `seek` and a request with action
`seek`, both outside the closed set, each send one snapshot (the unchanged
state) to `broadcast`, not zero: the send follows the switch
unconditionally. -/
theorem unknown_command_still_broadcasts :
    "seek" ∉ commandSet ∧
    (handleWebSocket ⟨"seek", JsonValue.other⟩ audioState).2 = [audioState] ∧
    (handleControl "POST" (some ⟨"seek", 0⟩) audioState).broadcasts = [audioState] := by
  refine ⟨by decide, ?_, ?_⟩
  · simp [handleWebSocket, handleWebSocketSwitch]
  · simp [handleControl, handleControlSwitch]

/-- C3 (amended): for every state, every frame handled by the push adapter
and every decoded `POST` request handled by the request/response adapter,
whether its type/action string is in the closed set or not, sends exactly one
snapshot to `broadcast`, equal to the resulting state; when the string is
outside the closed set the resulting state is the state before. -/
theorem every_command_broadcasts_once (s : AudioState) (msg : WebSocketMessage)
    (cmd : ControlCmd) :
    (handleWebSocket msg s).2 = [(handleWebSocket msg s).1] ∧
    (handleControl "POST" (some cmd) s).broadcasts
      = [(handleControl "POST" (some cmd) s).state] ∧
    (msg.MsgType ∉ commandSet → (handleWebSocket msg s).1 = s) ∧
    (cmd.Action ∉ commandSet → (handleControl "POST" (some cmd) s).state = s) := by
  refine ⟨rfl, by simp [handleControl], ?_, ?_⟩
  · intro h
    simp only [commandSet, List.mem_cons, List.mem_singleton, not_or, List.mem_nil_iff,
      or_false] at h
    obtain ⟨h1, h2, h3, h4, h5, h6, h7⟩ := h
    simp [handleWebSocket, handleWebSocketSwitch, h1, h2, h3, h4, h5, h6, h7]
  · intro h
    simp only [commandSet, List.mem_cons, List.mem_singleton, not_or, List.mem_nil_iff,
      or_false] at h
    obtain ⟨h1, h2, h3, h4, h5, _, _⟩ := h
    simp [handleControl, handleControlSwitch, h1, h2, h3, h4, h5]

/-- Witness of `every_command_broadcasts_once` (C3): the unknown command
`seek` on a playing state. -/
theorem every_command_broadcasts_once_witness :
    (handleWebSocket ⟨"seek", JsonValue.float64 3⟩ { audioState with IsPlaying := true }).1
      = { audioState with IsPlaying := true } ∧
    (handleControl "POST" (some ⟨"seek", 3⟩) { audioState with IsPlaying := true }).state
      = { audioState with IsPlaying := true } :=
  have h := every_command_broadcasts_once { audioState with IsPlaying := true }
    ⟨"seek", JsonValue.float64 3⟩ ⟨"seek", 3⟩
  ⟨h.2.2.1 (by decide), h.2.2.2 (by decide)⟩

/-! ## C4: setPosition -/

theorem truncToward0_eq (p : ℚ) : truncToward0 p = if 0 ≤ p then ⌊p⌋ else ⌈p⌉ := by
  unfold truncToward0
  split_ifs with h
  · rw [Rat.floor_def, Int.tdiv_eq_ediv (Rat.num_nonneg.mpr h) (by positivity)]
  · have hn : 0 ≤ (-p).num := Rat.num_nonneg.mpr (by linarith)
    have h1 : ⌈p⌉ = -⌊-p⌋ := by rw [Int.floor_neg]; simp
    rw [h1, Rat.floor_def, Rat.den_neg_eq_den, ← Int.tdiv_eq_ediv hn (by positivity),
      Rat.num_neg_eq_neg_num, Int.neg_tdiv, neg_neg]

/-- C4, as stated, fails: with duration `180` the push adapter's
`setPosition 500` leaves `CurrentTime = 500`, where the rule of the
specification gives `180`, and `setPosition -3` leaves `CurrentTime = -3`,
where the rule gives `0`. -/
theorem setPosition_does_not_clamp :
    audioState.Duration = 180 ∧
    (handleWebSocket ⟨"setPosition", JsonValue.float64 500⟩ audioState).1.CurrentTime = 500 ∧
    clampFloor 500 audioState.Duration = 180 ∧
    (handleWebSocket ⟨"setPosition", JsonValue.float64 (-3)⟩ audioState).1.CurrentTime = -3 ∧
    clampFloor (-3) audioState.Duration = 0 := by
  refine ⟨rfl, ?_, ?_, ?_, ?_⟩
  · simp [handleWebSocket, handleWebSocketSwitch, intOfFloat64, truncToward0, minInt64,
      maxInt64]
  · simp [clampFloor, audioState]
  · simp [handleWebSocket, handleWebSocketSwitch, intOfFloat64, truncToward0, minInt64,
      maxInt64]
  · have hfloor : ⌊(-3 : ℚ)⌋ = -3 := by
      rw [Int.floor_eq_iff]
      norm_num
    simp [clampFloor, audioState, hfloor]

/-- C4 (amended): for every state `s` and every numeric payload `p` whose
truncation toward zero fits a 64-bit `int`, the push adapter's `setPosition p`
leaves `currentTime` equal to `p` truncated toward zero (`⌊p⌋` when `0 ≤ p`,
`⌈p⌉` when `p < 0`), without any clamp, and changes no other field; the
snapshot it sends is that state. -/
theorem setPosition_truncates (s : AudioState) (p : ℚ)
    (hfit : minInt64 ≤ truncToward0 p ∧ truncToward0 p ≤ maxInt64) :
    handleWebSocket ⟨"setPosition", JsonValue.float64 p⟩ s
      = ({ s with CurrentTime := if 0 ≤ p then ⌊p⌋ else ⌈p⌉ },
         [{ s with CurrentTime := if 0 ≤ p then ⌊p⌋ else ⌈p⌉ }]) := by
  have h : intOfFloat64 p = if 0 ≤ p then ⌊p⌋ else ⌈p⌉ := by
    rw [← truncToward0_eq]
    unfold intOfFloat64
    rw [if_pos hfit]
  simp [handleWebSocket, handleWebSocketSwitch, h]

/-- Witness of `setPosition_truncates` (C4): `setPosition 500` on the initial
state, whose duration is `180`. -/
theorem setPosition_truncates_witness :
    (minInt64 ≤ truncToward0 500 ∧ truncToward0 500 ≤ maxInt64) ∧
    handleWebSocket ⟨"setPosition", JsonValue.float64 500⟩ audioState
      = ({ audioState with CurrentTime := if (0 : ℚ) ≤ 500 then ⌊(500 : ℚ)⌋ else ⌈(500 : ℚ)⌉ },
         [{ audioState with
              CurrentTime := if (0 : ℚ) ≤ 500 then ⌊(500 : ℚ)⌋ else ⌈(500 : ℚ)⌉ }]) :=
  have hfit : minInt64 ≤ truncToward0 500 ∧ truncToward0 500 ≤ maxInt64 := by
    simp [truncToward0, minInt64, maxInt64]
  ⟨hfit, setPosition_truncates audioState 500 hfit⟩

/-! ## C6: reset through both adapters -/

/-- C6 fails on the code for the request/response adapter: on the playing
state at position `42`, `handleControl` with action `reset` leaves the state
as it is (still playing, still at `42`) and replies with it, while
`handleWebSocket` with type `reset` on the same state stops playback and
returns to position `0`. -/
theorem handleControl_reset_is_ignored :
    handleControl "POST" (some ⟨"reset", 0⟩)
        { IsPlaying := true, Volume := 7 / 10, IsMuted := false, CurrentTime := 42,
          Duration := 180 }
      = { state := { IsPlaying := true, Volume := 7 / 10, IsMuted := false,
                     CurrentTime := 42, Duration := 180 }
          broadcasts := [{ IsPlaying := true, Volume := 7 / 10, IsMuted := false,
                           CurrentTime := 42, Duration := 180 }]
          response := ControlResponse.ok
            { IsPlaying := true, Volume := 7 / 10, IsMuted := false, CurrentTime := 42,
              Duration := 180 } } ∧
    (handleWebSocket ⟨"reset", JsonValue.other⟩
        { IsPlaying := true, Volume := 7 / 10, IsMuted := false, CurrentTime := 42,
          Duration := 180 }).1
      = { IsPlaying := false, Volume := 7 / 10, IsMuted := false, CurrentTime := 0,
          Duration := 180 } := by
  constructor
  · simp [handleControl, handleControlSwitch]
  · simp [handleWebSocket, handleWebSocketSwitch]

/-! ## C7: toggleMute -/

/-- C7: for every state `s`, `toggleMute` through either adapter (whatever
payload comes with it) yields `isMuted = not s.isMuted`, `volume = 0` when
the result is muted and `volume = 0.7` when it is unmuted, and leaves
`isPlaying`, `currentTime` and `duration` unchanged; from the initial state
one `toggleMute` gives volume `0`, muted, and a second gives volume `0.7`,
unmuted. -/
theorem toggleMute_flips (s : AudioState) (data : JsonValue) (value : ℚ) :
    (handleWebSocket ⟨"toggleMute", data⟩ s).1
      = { s with IsMuted := !s.IsMuted, Volume := if (!s.IsMuted) = true then 0 else 7 / 10 } ∧
    (handleControl "POST" (some ⟨"toggleMute", value⟩) s).state
      = { s with IsMuted := !s.IsMuted, Volume := if (!s.IsMuted) = true then 0 else 7 / 10 } ∧
    (handleWebSocket ⟨"toggleMute", data⟩ audioState).1
      = { audioState with Volume := 0, IsMuted := true } ∧
    (handleWebSocket ⟨"toggleMute", data⟩
        (handleWebSocket ⟨"toggleMute", data⟩ audioState).1).1
      = { audioState with Volume := 7 / 10, IsMuted := false } ∧
    (handleControl "POST" (some ⟨"toggleMute", value⟩) audioState).state
      = { audioState with Volume := 0, IsMuted := true } ∧
    (handleControl "POST" (some ⟨"toggleMute", value⟩)
        (handleControl "POST" (some ⟨"toggleMute", value⟩) audioState).state).state
      = { audioState with Volume := 7 / 10, IsMuted := false } := by
  have hws : ∀ t : AudioState, (handleWebSocket ⟨"toggleMute", data⟩ t).1
      = { t with IsMuted := !t.IsMuted,
                 Volume := if (!t.IsMuted) = true then 0 else 7 / 10 } := by
    intro t
    cases hm : t.IsMuted <;> simp [handleWebSocket, handleWebSocketSwitch, hm]
  have hctl : ∀ t : AudioState, (handleControl "POST" (some ⟨"toggleMute", value⟩) t).state
      = { t with IsMuted := !t.IsMuted,
                 Volume := if (!t.IsMuted) = true then 0 else 7 / 10 } := by
    intro t
    cases hm : t.IsMuted <;> simp [handleControl, handleControlSwitch, hm]
  refine ⟨hws s, hctl s, ?_, ?_, ?_, ?_⟩
  · rw [hws]; simp [audioState]
  · rw [hws, hws]; simp [audioState]
  · rw [hctl]; simp [audioState]
  · rw [hctl, hctl]; simp [audioState]

/-! ## C9: setVolume 0 -/

/-- C9: for every state `s`, `setVolume` with payload `0`, through
`handleControl` with value `0` or through `handleWebSocket` with data `0`,
yields a state with `isMuted = true` and `volume = 0` and leaves `isPlaying`,
`currentTime` and `duration` unchanged. -/
theorem setVolume_zero_mutes (s : AudioState) :
    (handleControl "POST" (some ⟨"setVolume", 0⟩) s).state
      = { s with Volume := 0, IsMuted := true } ∧
    (handleWebSocket ⟨"setVolume", JsonValue.float64 0⟩ s).1
      = { s with Volume := 0, IsMuted := true } := by
  constructor
  · simp [handleControl, handleControlSwitch]
  · simp [handleWebSocket, handleWebSocketSwitch]

/-! ## C5: play to completion -/

theorem run_cons (s : AudioState) (st : Step) (rest : List Step) :
    run s (st :: rest)
      = ((run (step s st).1 rest).1, (step s st).2 ++ (run (step s st).1 rest).2) := rfl

theorem run_append (s : AudioState) (a b : List Step) :
    run s (a ++ b) = ((run (run s a).1 b).1, (run s a).2 ++ (run (run s a).1 b).2) := by
  induction a generalizing s with
  | nil => simp [run]
  | cons st rest ih => simp [run_cons, ih]

/-- A tick of a playing state whose next position is below the duration
advances the position by one. -/
theorem tick_advances (s : AudioState) (hp : s.IsPlaying = true) (h0 : 0 ≤ s.CurrentTime)
    (hlt : s.CurrentTime + 1 < s.Duration) (hmax : s.Duration ≤ maxInt64) :
    step s Step.tick
      = ({ s with CurrentTime := s.CurrentTime + 1 }, [{ s with CurrentTime := s.CurrentTime + 1 }]) := by
  have hw : wrapInt64 (s.CurrentTime + 1) = s.CurrentTime + 1 :=
    wrapInt64_of_range _ (by unfold minInt64; omega) (by omega)
  simp only [step, startAudioTimer, hp, hw, if_true, ge_iff_le]
  rw [if_neg (by omega)]

/-- A tick of a playing state whose next position reaches the duration stops
playback and returns to position `0`. -/
theorem tick_finishes (s : AudioState) (hp : s.IsPlaying = true) (h0 : 0 ≤ s.CurrentTime)
    (hge : s.Duration ≤ s.CurrentTime + 1) (hmax : s.CurrentTime < maxInt64) :
    step s Step.tick
      = ({ s with IsPlaying := false, CurrentTime := 0 },
         [{ s with IsPlaying := false, CurrentTime := 0 }]) := by
  have hw : wrapInt64 (s.CurrentTime + 1) = s.CurrentTime + 1 :=
    wrapInt64_of_range _ (by unfold minInt64; omega) (by omega)
  simp only [step, startAudioTimer, hp, hw, if_true, ge_iff_le]
  rw [if_pos hge]

/-- Ticks of a state that is not playing leave it as it is and send it each
time. -/
theorem ticks_idle (s : AudioState) (hp : s.IsPlaying = false) (n : Nat) :
    run s (List.replicate n Step.tick) = (s, List.replicate n s) := by
  induction n with
  | zero => rfl
  | succ n ih =>
    have h1 : step s Step.tick = (s, [s]) := by simp [step, startAudioTimer, hp]
    rw [List.replicate_succ, run_cons, h1, ih]
    rfl

/-- While the position stays below the duration, `m` ticks of a playing
state send the positions that follow the current one, one by one. -/
theorem ticks_playing (m : Nat) : ∀ (s : AudioState), s.IsPlaying = true →
    0 ≤ s.CurrentTime → s.CurrentTime + (m : Int) < s.Duration → s.Duration ≤ maxInt64 →
    run s (List.replicate m Step.tick)
      = ({ s with CurrentTime := s.CurrentTime + (m : Int) },
         (List.range m).map (fun i => { s with CurrentTime := s.CurrentTime + ((i : Int) + 1) })) := by
  induction m with
  | zero => intro s _ _ _ _; simp [run]
  | succ m ih =>
    intro s hp h0 hlt hmax
    push_cast at hlt
    have h1 := tick_advances s hp h0 (by omega) hmax
    have h2 := ih { s with CurrentTime := s.CurrentTime + 1 } hp
      (by simp only; omega) (by simp only; omega) hmax
    rw [List.replicate_succ, run_cons, h1, h2, List.range_succ_eq_map]
    simp only [List.map_cons, List.map_map, List.singleton_append, Prod.mk.injEq]
    refine ⟨?_, ?_⟩
    · push_cast; congr 1; omega
    · rw [List.cons.injEq]
      refine ⟨by simp, ?_⟩
      apply List.map_congr_left
      intro i _
      simp only [Function.comp, Nat.cast_succ]
      congr 1; omega

/-- C5, as stated, fails: from `{false, 0.7, false, 0, 5}`, `play` followed
by six ticks ends in `{false, 0.7, false, 0, 5}`, but the ticks send the
positions `1, 2, 3, 4` and then the reset snapshot twice (fifth and sixth
tick); no snapshot carries the position `5`, since the tick that reaches the
duration resets before the snapshot is taken. -/
theorem position_five_never_sent :
    run { IsPlaying := false, Volume := 7 / 10, IsMuted := false, CurrentTime := 0,
          Duration := 5 }
        (Step.ws ⟨"play", JsonValue.other⟩ :: List.replicate 6 Step.tick)
      = ({ IsPlaying := false, Volume := 7 / 10, IsMuted := false, CurrentTime := 0,
           Duration := 5 },
         [{ IsPlaying := true, Volume := 7 / 10, IsMuted := false, CurrentTime := 0,
            Duration := 5 },
          { IsPlaying := true, Volume := 7 / 10, IsMuted := false, CurrentTime := 1,
            Duration := 5 },
          { IsPlaying := true, Volume := 7 / 10, IsMuted := false, CurrentTime := 2,
            Duration := 5 },
          { IsPlaying := true, Volume := 7 / 10, IsMuted := false, CurrentTime := 3,
            Duration := 5 },
          { IsPlaying := true, Volume := 7 / 10, IsMuted := false, CurrentTime := 4,
            Duration := 5 },
          { IsPlaying := false, Volume := 7 / 10, IsMuted := false, CurrentTime := 0,
            Duration := 5 },
          { IsPlaying := false, Volume := 7 / 10, IsMuted := false, CurrentTime := 0,
            Duration := 5 }]) ∧
    ¬ (∃ snap ∈ (run { IsPlaying := false, Volume := 7 / 10, IsMuted := false,
                        CurrentTime := 0, Duration := 5 }
        (Step.ws ⟨"play", JsonValue.other⟩ :: List.replicate 6 Step.tick)).2,
        snap.CurrentTime = 5) := by
  constructor
  · simp [List.replicate, run, step, handleWebSocket, handleWebSocketSwitch, startAudioTimer,
      wrapInt64]
  · simp [List.replicate, run, step, handleWebSocket, handleWebSocketSwitch, startAudioTimer,
      wrapInt64]

/-- C5 (amended): for every duration `d > 0` that fits a 64-bit `int` and
every state at position `0` with that duration, `play` followed by `d + n`
ticks ends in that state with `isPlaying = false` and `currentTime = 0`; the
ticks send `currentTime = 1, 2, ..., d - 1` (playing) and then, from the
`d`-th tick on, the reset snapshot (`isPlaying = false`, `currentTime = 0`);
volume, mute flag and duration never change. With `d = 5` and six ticks the
final snapshot is `{isPlaying:false, currentTime:0, volume:0.7,
isMuted:false, duration:5}` and the ticks send `1, 2, 3, 4`, reset, reset. -/
theorem play_to_completion (s0 : AudioState) (data : JsonValue) (d n : Nat)
    (hd : 0 < d) (hmax : (d : Int) ≤ maxInt64)
    (hct : s0.CurrentTime = 0) (hdur : s0.Duration = (d : Int)) :
    run s0 (Step.ws ⟨"play", data⟩ :: List.replicate (d + n) Step.tick)
      = ({ s0 with IsPlaying := false, CurrentTime := 0 },
         { s0 with IsPlaying := true } ::
           ((List.range (d - 1)).map
              (fun i => { s0 with IsPlaying := true, CurrentTime := (i : Int) + 1 })
            ++ List.replicate (n + 1) { s0 with IsPlaying := false, CurrentTime := 0 })) := by
  obtain ⟨p, v, mu, ct, du⟩ := s0
  simp only at hct hdur
  subst hct
  subst hdur
  have hplay : step ⟨p, v, mu, 0, (d : Int)⟩ (Step.ws ⟨"play", data⟩)
      = (⟨true, v, mu, 0, (d : Int)⟩, [⟨true, v, mu, 0, (d : Int)⟩]) := by
    simp [step, handleWebSocket, handleWebSocketSwitch]
  have hsplit : List.replicate (d + n) Step.tick
      = List.replicate (d - 1) Step.tick ++ (Step.tick :: List.replicate n Step.tick) := by
    rw [← List.replicate_succ, ← List.replicate_add]
    congr 1
    omega
  have hrun := ticks_playing (d - 1) ⟨true, v, mu, 0, (d : Int)⟩ rfl (le_refl _)
    (by simp only; omega) hmax
  have hlast := tick_finishes ⟨true, v, mu, 0 + ((d - 1 : Nat) : Int), (d : Int)⟩ rfl
    (by simp only; omega) (by simp only; omega) (by simp only; omega)
  have hidle := ticks_idle ⟨false, v, mu, 0, (d : Int)⟩ rfl n
  rw [run_cons, hplay, hsplit, run_append, hrun, run_cons, hlast, hidle]
  simp [List.replicate_succ]

/-- Witness of `play_to_completion` (C5): duration `5`, `play`, six ticks. -/
theorem play_to_completion_witness :
    run { IsPlaying := false, Volume := 7 / 10, IsMuted := false, CurrentTime := 0,
          Duration := ((5 : Nat) : Int) }
        (Step.ws ⟨"play", JsonValue.other⟩ :: List.replicate (5 + 1) Step.tick)
      = ({ IsPlaying := false, Volume := 7 / 10, IsMuted := false, CurrentTime := 0,
           Duration := ((5 : Nat) : Int) },
         { IsPlaying := true, Volume := 7 / 10, IsMuted := false, CurrentTime := 0,
           Duration := ((5 : Nat) : Int) } ::
           ((List.range (5 - 1)).map
              (fun i => { IsPlaying := true, Volume := 7 / 10, IsMuted := false,
                          CurrentTime := (i : Int) + 1, Duration := ((5 : Nat) : Int) })
            ++ List.replicate (1 + 1)
                { IsPlaying := false, Volume := 7 / 10, IsMuted := false, CurrentTime := 0,
                  Duration := ((5 : Nat) : Int) })) :=
  play_to_completion
    { IsPlaying := false, Volume := 7 / 10, IsMuted := false, CurrentTime := 0,
      Duration := ((5 : Nat) : Int) }
    JsonValue.other 5 1 (by decide) (by unfold maxInt64; norm_num) rfl rfl

/-! ## C8: broadcaster and registry -/

theorem foldl_broadcastToClient (writeOk : Conn → Bool) (state : AudioState) (l : List Conn) :
    ∀ acc : Hub, l.foldl (broadcastToClient writeOk state) acc
      = { clients := acc.clients.filter (fun c => decide (c ∉ l) || writeOk c)
          closed := acc.closed ++ l.filter (fun c => !writeOk c)
          delivered := acc.delivered ++ (l.filter writeOk).map (fun c => (c, state)) } := by
  induction l with
  | nil => intro acc; simp
  | cons a l ih =>
    intro acc
    rw [List.foldl_cons, ih]
    cases hok : writeOk a
    · simp only [broadcastToClient, hok, Bool.false_eq_true, if_false, List.filter_filter,
        Hub.mk.injEq]
      refine ⟨?_, ?_, ?_⟩
      · apply List.filter_congr
        intro x _
        by_cases hx : x = a
        · subst hx; simp [hok]
        · simp [hx]
      · simp [List.filter_cons, hok]
      · simp [List.filter_cons, hok]
    · simp only [broadcastToClient, hok, if_true, Hub.mk.injEq]
      refine ⟨?_, ?_, ?_⟩
      · apply List.filter_congr
        intro x _
        by_cases hx : x = a
        · subst hx; simp [hok]
        · simp [hx]
      · simp [List.filter_cons, hok]
      · simp [List.filter_cons, hok]

/-- Closed form of one round of the broadcaster. -/
theorem broadcastAudioState_eq (writeOk : Conn → Bool) (state : AudioState) (h : Hub) :
    broadcastAudioState writeOk state h
      = { clients := h.clients.filter writeOk
          closed := h.closed ++ h.clients.filter (fun c => !writeOk c)
          delivered := h.delivered ++ (h.clients.filter writeOk).map (fun c => (c, state)) } := by
  unfold broadcastAudioState
  rw [foldl_broadcastToClient]
  simp only [Hub.mk.injEq, and_true]
  apply List.filter_congr
  intro x hx
  simp [hx]

theorem filter_eq_singleton (m : List Conn) (c : Conn) (hnd : m.Nodup) (hc : c ∈ m) :
    m.filter (fun a => decide (a = c)) = [c] := by
  induction m with
  | nil => simp at hc
  | cons a m ih =>
    rw [List.nodup_cons] at hnd
    by_cases hac : a = c
    · subst hac
      have hnil : m.filter (fun x => decide (x = a)) = [] := by
        rw [List.filter_eq_nil_iff]
        intro x hx
        simp only [decide_eq_true_eq]
        rintro rfl
        exact hnd.1 hx
      simp [List.filter_cons, hnil]
    · have hcm : c ∈ m := by
        rcases List.mem_cons.mp hc with h | h
        · exact absurd h.symm hac
        · exact h
      simp [List.filter_cons, hac, ih hnd.2 hcm]

/-- One round of the broadcaster appends the snapshot to what a registered
connection with a working transport has received. -/
theorem deliveredTo_round (writeOk : Conn → Bool) (state : AudioState) (h : Hub) (c : Conn)
    (hnd : h.clients.Nodup) (hc : c ∈ h.clients) (hok : writeOk c = true) :
    deliveredTo c (broadcastAudioState writeOk state h) = deliveredTo c h ++ [state] := by
  have hmem : c ∈ h.clients.filter writeOk := List.mem_filter.mpr ⟨hc, hok⟩
  have hone := filter_eq_singleton (h.clients.filter writeOk) c (hnd.filter _) hmem
  rw [broadcastAudioState_eq]
  simp only [deliveredTo, List.filter_append, List.map_append, List.filter_map]
  congr 1
  have hfun : ((fun d : Conn × AudioState => decide (d.1 = c)) ∘ fun x => (x, state))
      = fun a => decide (a = c) := rfl
  rw [hfun, hone]
  rfl

/-- C8: with the registry as an explicit set of subscribers (a duplicate-free
list of connections) and each send succeeding or failing per subscriber, for
every snapshot handled by the loop body of `broadcastAudioState` a registered
subscriber whose send fails is removed from the registry and closed, and one
whose send succeeds stays registered and is sent that snapshot; hence over
any sequence of snapshots, whatever the other subscribers' transports do, a
registered subscriber whose own sends succeed stays registered and is sent
every snapshot, once each and in order. -/
theorem broadcast_isolates_failures (h : Hub) (c : Conn)
    (hnd : h.clients.Nodup) (hc : c ∈ h.clients) :
    (∀ (writeOk : Conn → Bool) (state : AudioState),
      (writeOk c = false →
        c ∉ (broadcastAudioState writeOk state h).clients ∧
        c ∈ (broadcastAudioState writeOk state h).closed) ∧
      (writeOk c = true →
        c ∈ (broadcastAudioState writeOk state h).clients ∧
        deliveredTo c (broadcastAudioState writeOk state h) = deliveredTo c h ++ [state])) ∧
    (∀ rounds : List (AudioState × (Conn → Bool)), (∀ r ∈ rounds, r.2 c = true) →
      c ∈ (broadcastAll h rounds).clients ∧
      deliveredTo c (broadcastAll h rounds) = deliveredTo c h ++ rounds.map Prod.fst) := by
  constructor
  · intro writeOk state
    constructor
    · intro hfail
      rw [broadcastAudioState_eq]
      simp [hfail, hc]
    · intro hok
      refine ⟨?_, deliveredTo_round writeOk state h c hnd hc hok⟩
      rw [broadcastAudioState_eq]
      exact List.mem_filter.mpr ⟨hc, hok⟩
  · intro rounds
    induction rounds generalizing h with
    | nil => intro _; simpa [broadcastAll] using hc
    | cons r rest ih =>
      intro hall
      have hok : r.2 c = true := hall r (List.mem_cons_self _ _)
      have hnd1 : (broadcastAudioState r.2 r.1 h).clients.Nodup := by
        rw [broadcastAudioState_eq]
        exact hnd.filter _
      have hc1 : c ∈ (broadcastAudioState r.2 r.1 h).clients := by
        rw [broadcastAudioState_eq]
        exact List.mem_filter.mpr ⟨hc, hok⟩
      have h2 := ih (broadcastAudioState r.2 r.1 h) hnd1 hc1
        (fun t ht => hall t (List.mem_cons_of_mem _ ht))
      refine ⟨h2.1, ?_⟩
      have h3 := h2.2
      rw [deliveredTo_round r.2 r.1 h c hnd hc hok] at h3
      simpa [broadcastAll] using h3

/-- Witness of `broadcast_isolates_failures` (C8): subscribers `1, 2, 3`;
the transport of `1` breaks in the first round and that of `3` in the second;
subscriber `2` stays registered and is sent both snapshots. -/
theorem broadcast_isolates_failures_witness :
    ([1, 2, 3] : List Conn).Nodup ∧ (2 : Conn) ∈ ([1, 2, 3] : List Conn) ∧
    (2 : Conn) ∈ (broadcastAll ⟨[1, 2, 3], [], []⟩
      [(audioState, fun c => decide (c ≠ 1)),
       ({ audioState with IsPlaying := true }, fun c => decide (c ≠ 3))]).clients ∧
    deliveredTo 2 (broadcastAll ⟨[1, 2, 3], [], []⟩
      [(audioState, fun c => decide (c ≠ 1)),
       ({ audioState with IsPlaying := true }, fun c => decide (c ≠ 3))])
      = deliveredTo 2 ⟨[1, 2, 3], [], []⟩ ++
        [(audioState, fun c => decide (c ≠ 1)),
         (({ audioState with IsPlaying := true } : AudioState),
           fun c => decide (c ≠ 3))].map Prod.fst :=
  have hnd : ([1, 2, 3] : List Conn).Nodup := by decide
  have hc : (2 : Conn) ∈ ([1, 2, 3] : List Conn) := by decide
  ⟨hnd, hc, (broadcast_isolates_failures ⟨[1, 2, 3], [], []⟩ 2 hnd hc).2
    [(audioState, fun c => decide (c ≠ 1)),
     ({ audioState with IsPlaying := true }, fun c => decide (c ≠ 3))]
    (by simp)⟩

end TriniWeb
